import Mathlib

/-!
Shallow embedding of the grid-trading strategy engine found in
src/services/grid_engine.py, together with theorems settling the claims about
its specification.

Modelling conventions (used uniformly below):
* Python float values are modelled as exact rationals; Python ints as integers.
* Python dicts (insertion ordered, duplicate-key free) are modelled as
  association lists over String keys; dict assignment replaces the first
  matching key in place, dict pop removes the key.  All reachable dictionaries
  are duplicate-key free, so removing every occurrence of a key coincides with
  removing the unique one.
* Account identity: the Python code stores account objects in a dict keyed by
  account id and aliases the same objects in the working-set list
  AccountQueue.long_queue, with distinct account ids.  The list is therefore
  modelled as a list of account ids resolved against the account store; object
  equality coincides with account-id equality.
* Every call into the asynchronous exchange collaborator consumes the head of
  an explicit response script (the XResp list).  The response constructors
  mirror the collaborator operations of the spec; a response of the wrong kind
  (or a missing one) at a call site plays the role of the corresponding call
  raising.  Where the source catches the exception locally the operation
  continues on the caught path; where it does not (the capacity-check awaits
  in the placement cycle and in place_averaging_order), the operation aborts
  and the exception propagates to the main loop: such operations carry a
  trailing Boolean component, true when they ran to completion, false when
  they raised, with the engine state as of the raise.
-/

namespace Treade

/-- Order lifecycle status, from the OrderStatus enum. -/
inductive OrderStatus where
  | PENDING
  | FILLED
  | CANCELLED
deriving DecidableEq, Repr

/-- Account pool status, from the AccountStatus enum. -/
inductive AccountStatus where
  | FREE
  | BUSY
deriving DecidableEq, Repr

/-- One fixed price on a symbol ladder, from the GridLevel dataclass.
The open-position counter is an integer, as in the source. -/
structure GridLevel where
  price : ℚ
  max_positions : ℤ := 1
  is_active_long : Bool := false
  positions_count : ℤ := 0
deriving DecidableEq, Repr

/-- GridLevel.check_activation_threshold: relative distance from the level
price reaches the threshold. -/
def GridLevel.check_activation_threshold (l : GridLevel) (current_price threshold : ℚ) : Bool :=
  decide (threshold ≤ |current_price - l.price| / l.price)

/-- GridLevel.can_open_position: the open-position counter is below capacity. -/
def GridLevel.can_open_position (l : GridLevel) : Bool :=
  decide (l.positions_count < l.max_positions)

/-- GridLevel.open_position: unguarded increment of the counter. -/
def GridLevel.open_position (l : GridLevel) : GridLevel :=
  { l with positions_count := l.positions_count + 1 }

/-- GridLevel.close_position: decrement the counter only when it is positive. -/
def GridLevel.close_position (l : GridLevel) : GridLevel :=
  if 0 < l.positions_count then { l with positions_count := l.positions_count - 1 } else l

/-- One open long position on one account, from the Position dataclass. -/
structure Position where
  symbol : String
  quantity : ℚ
  entry_price : ℚ
  level_price : ℚ
  close_order_id : Option String := none
  averaging_order_id : Option String := none
  leverage : ℚ := 1
  risk_zone : String := ""
  total_quantity : ℚ
  average_entry_price : ℚ
  is_averaged : Bool := false
  is_averaged_by_volume : Bool := false
  averaging_failed_insufficient_balance : Bool := false
  last_averaging_alert_roi : Option ℚ := none
deriving DecidableEq, Repr

/-- Position construction including the dataclass post-init step, which seeds
the running totals from the initial fill. -/
def mkPosition (symbol : String) (quantity entry_price level_price : ℚ) : Position :=
  { symbol := symbol
    quantity := quantity
    entry_price := entry_price
    level_price := level_price
    total_quantity := quantity
    average_entry_price := entry_price }

/-- Position.calculate_breakeven_price. -/
def Position.calculate_breakeven_price (p : Position) : ℚ :=
  p.average_entry_price

/-- Position.calculate_roi. -/
def Position.calculate_roi (p : Position) (price : ℚ) : ℚ :=
  if p.average_entry_price = 0 then 0
  else (price - p.average_entry_price) / p.average_entry_price

/-- Position.add_averaging: fold one averaging fill into the running
volume-weighted totals. -/
def Position.add_averaging (p : Position) (qty price : ℚ) : Position :=
  { p with
    total_quantity := p.total_quantity + qty
    average_entry_price :=
      (p.average_entry_price * p.total_quantity + price * qty) / (p.total_quantity + qty)
    is_averaged := true }

/-- A resting order, from the Order dataclass. -/
structure Order where
  order_id : String
  symbol : String
  side : String
  order_type : String
  quantity : ℚ
  price : ℚ
  purpose : String
  account_id : String
  status : OrderStatus := .PENDING
  level_price : Option ℚ := none
deriving DecidableEq, Repr

/-- Order.mark_filled. -/
def Order.mark_filled (o : Order) : Order :=
  { o with status := .FILLED }

/-- One capital allocation unit, from the TradingAccount dataclass. -/
structure TradingAccount where
  account_id : String
  balance : ℚ := 0
  status : AccountStatus := .FREE
  long_usdt_position : Option Position := none
deriving DecidableEq, Repr

/-- TradingAccount.has_free_slot. -/
def TradingAccount.has_free_slot (a : TradingAccount) : Bool :=
  a.long_usdt_position.isNone

/-- TradingAccount.open_position: attach a position and mark the account busy. -/
def TradingAccount.open_position (a : TradingAccount) (p : Position) : TradingAccount :=
  { a with long_usdt_position := some p, status := .BUSY }

/-- TradingAccount.close_position: detach the position and mark the account free. -/
def TradingAccount.close_position (a : TradingAccount) : TradingAccount :=
  { a with long_usdt_position := none, status := .FREE }

/-- The AccountQueue state: the account store (dict insertion order) and the
working set of account ids. -/
structure AQ where
  accounts : List TradingAccount
  long_queue : List String
deriving DecidableEq, Repr

/-- Dict lookup on an association list. -/
def lookupA {α : Type} : List (String × α) → String → Option α
  | [], _ => none
  | p :: rest, k => if p.1 = k then some p.2 else lookupA rest k

/-- Dict assignment: replace the first binding of the key in place, else append. -/
def insA {α : Type} (k : String) (v : α) : List (String × α) → List (String × α)
  | [] => [(k, v)]
  | p :: rest => if p.1 = k then (k, v) :: rest else p :: insA k v rest

/-- Dict pop: remove the bindings of the key (dicts are duplicate-key free, so
this removes exactly the one binding when present). -/
def delA {α : Type} (k : String) : List (String × α) → List (String × α)
  | [] => []
  | p :: rest => if p.1 = k then delA k rest else p :: delA k rest

/-- Lookup of an account by id in the account store. -/
def lookupAcct : List TradingAccount → String → Option TradingAccount
  | [], _ => none
  | a :: rest, k => if a.account_id = k then some a else lookupAcct rest k

/-- Pointwise update of the account with the given id (the Python code mutates
the unique object with that id in place). -/
def updAcct (k : String) (f : TradingAccount → TradingAccount)
    (l : List TradingAccount) : List TradingAccount :=
  l.map (fun a => if a.account_id = k then f a else a)

/-- First maximal element by balance, as the Python max builtin computes it
(a later element replaces the current best only when strictly greater). -/
def maxByBalance : List TradingAccount → Option TradingAccount
  | [] => none
  | x :: xs => some (xs.foldl (fun acc a => if acc.balance < a.balance then a else acc) x)

/-- The working-set accounts that can take a new position and meet the balance
requirement, in working-set order (the list comprehension in
AccountQueue.get_next_free_account). -/
def suitableAccounts (aq : AQ) (required_balance : ℚ) : List TradingAccount :=
  (aq.long_queue.filterMap (lookupAcct aq.accounts)).filter
    (fun a => a.has_free_slot && decide (required_balance ≤ a.balance))

/-- AccountQueue.get_next_free_account: pick the highest-balance suitable
account and remove it from the working set; the default required balance in
the source is 0. -/
def get_next_free_account (required_balance : ℚ) (aq : AQ) : Option TradingAccount × AQ :=
  match maxByBalance (suitableAccounts aq required_balance) with
  | none => (none, aq)
  | some best => (some best, { aq with long_queue := aq.long_queue.erase best.account_id })

/-- AccountQueue.return_account_to_queue: re-append the account only when it is
not already in the working set. -/
def return_account_to_queue (a : TradingAccount) (aq : AQ) : AQ :=
  if a.account_id ∈ aq.long_queue then aq
  else { aq with long_queue := aq.long_queue ++ [a.account_id] }

/-- Round a rational to the nearest integer with ties going to the even
integer, the rounding applied by Python `%.3f` string formatting. -/
def roundHalfEven (x : ℚ) : ℤ :=
  let f : ℤ := ⌊x⌋
  let r : ℚ := x - f
  if r < 1/2 then f
  else if 1/2 < r then f + 1
  else if f % 2 = 0 then f else f + 1

/-- GridEngine.calculate_quantity_from_usdt: format the quotient to three
decimal places and read it back, i.e. round to the nearest 0.001. -/
def calculate_quantity_from_usdt (usdt_amount price : ℚ) : ℚ :=
  (roundHalfEven (usdt_amount / price * 1000) : ℚ) / 1000

/-- Modelled from the spec: the spec sentence for the placement cycle reads
"quantity = volume / price, truncated to a fixed precision"; this is the
spec's truncation toward zero at three decimal places, stated here only to be
compared against the source definition above. -/
def specTruncate3 (x : ℚ) : ℚ :=
  if 0 ≤ x then ((⌊x * 1000⌋ : ℤ) : ℚ) / 1000 else -(((⌊-x * 1000⌋ : ℤ) : ℚ) / 1000)

/-- The static configuration the engine reads through the config module
(read-only, loaded once at startup).  Per-symbol lists are parallel to
SYMBOLS, as the enumerate-based constructors in the source consume them. -/
structure Config where
  ACCOUNT_IDS : List String
  SYMBOLS : List String
  GRID_LEVELS : List (List ℚ)
  LEVEL_ACTIVATION_THRESHOLD : ℚ
  OVERSOLD_ZONE_BOUNDARIES : List (List ℚ)
  OVERBOUGHT_ZONE_BOUNDARIES : List (List ℚ)
  OVERSOLD_ZONE_LEVERAGE : ℚ
  OVERBOUGHT_ZONE_LEVERAGE : ℚ
  NEUTRAL_ZONE_LEVERAGE : ℚ
  OVERSOLD_ZONE_VOLUME_USDT : ℚ
  OVERBOUGHT_ZONE_VOLUME_USDT : ℚ
  NEUTRAL_ZONE_VOLUME_USDT : ℚ
  AVERAGING_PRICE_DROP_PERCENT : ℚ
  AVERAGING_MULTIPLIER : ℚ
  PROFIT_CLOSE_MODE : String
deriving Repr

/-- Maximum of a list of rationals (Python max on a nonempty list; the empty
case does not arise for the configured boundary lists). -/
def maxListQ : List ℚ → ℚ
  | [] => 0
  | x :: xs => xs.foldl max x

/-- Minimum of a list of rationals (Python min on a nonempty list). -/
def minListQ : List ℚ → ℚ
  | [] => 0
  | x :: xs => xs.foldl min x

/-- RiskZoneManager.symbol_zones as built in its constructor: per symbol the
pair (oversold_max, overbought_min). -/
def symbolZones (cfg : Config) : List (String × (ℚ × ℚ)) :=
  (cfg.SYMBOLS.zip (cfg.OVERSOLD_ZONE_BOUNDARIES.zip cfg.OVERBOUGHT_ZONE_BOUNDARIES)).map
    (fun p => (p.1, (maxListQ p.2.1, minListQ p.2.2)))

/-- RiskZoneManager.get_risk_zone. -/
def get_risk_zone (cfg : Config) (symbol : String) (price : ℚ) : String :=
  match lookupA (symbolZones cfg) symbol with
  | none => "NEUTRAL"
  | some z =>
    if price ≤ z.1 then "OVERSOLD"
    else if z.2 ≤ price then "OVERBOUGHT"
    else "NEUTRAL"

/-- RiskZoneManager.get_leverage_for_zone. -/
def get_leverage_for_zone (cfg : Config) (zone : String) : ℚ :=
  if zone = "OVERSOLD" then cfg.OVERSOLD_ZONE_LEVERAGE
  else if zone = "OVERBOUGHT" then cfg.OVERBOUGHT_ZONE_LEVERAGE
  else cfg.NEUTRAL_ZONE_LEVERAGE

/-- RiskZoneManager.get_volume_usdt_for_zone. -/
def get_volume_usdt_for_zone (cfg : Config) (zone : String) : ℚ :=
  if zone = "OVERSOLD" then cfg.OVERSOLD_ZONE_VOLUME_USDT
  else if zone = "OVERBOUGHT" then cfg.OVERBOUGHT_ZONE_VOLUME_USDT
  else cfg.NEUTRAL_ZONE_VOLUME_USDT

/-- The record returned by RiskZoneManager.get_level_config. -/
structure LevelCfg where
  risk_zone : String
  leverage : ℚ
  volume_usdt : ℚ
deriving DecidableEq, Repr

/-- RiskZoneManager.get_level_config. -/
def get_level_config (cfg : Config) (symbol : String) (price : ℚ) : LevelCfg :=
  let zone := get_risk_zone cfg symbol price
  { risk_zone := zone
    leverage := get_leverage_for_zone cfg zone
    volume_usdt := get_volume_usdt_for_zone cfg zone }

/-- The engine-wide mutable state: the account pool, the per-symbol level
tables of the LevelManager, and the GridEngine state dict entries
current_prices, active_orders and order_account_mapping. -/
structure Eng where
  aq : AQ
  levels : List (String × List GridLevel)
  current_prices : List (String × ℚ)
  active_orders : List (String × Order)
  order_account_mapping : List (String × String)
deriving DecidableEq, Repr

/-- Exchange-collaborator responses consumed, one per call, by the engine
operations.  A constructor of the wrong kind at a call site stands for the
call raising an exception. -/
inductive XResp where
  | pOk (order_id : String)
  | pErr
  | cOk (success : Bool)
  | cErr
  | bOk (balance : ℚ)
  | bErr
  | can (allowed : Bool)
deriving DecidableEq, Repr

/-- LevelManager.get_level on the engine state. -/
def getLevelE (e : Eng) (symbol : String) (price : ℚ) : Option GridLevel :=
  ((lookupA e.levels symbol).getD []).find? (fun l => decide (l.price = price))

/-- Pointwise update of the level with the given price on the given symbol
(no effect when absent, as the source guards with a get_level lookup). -/
def updLevel (symbol : String) (price : ℚ) (f : GridLevel → GridLevel) (e : Eng) : Eng :=
  { e with levels := e.levels.map (fun sl =>
      if sl.1 = symbol then (sl.1, sl.2.map (fun l => if l.price = price then f l else l))
      else sl) }

/-- Pointwise update of the position held by the account with the given id. -/
def updAcctPos (account_id : String) (f : Position → Position) (e : Eng) : Eng :=
  let g : TradingAccount → TradingAccount :=
    fun a => { a with long_usdt_position := a.long_usdt_position.map f }
  { e with aq := { e.aq with accounts := updAcct account_id g e.aq.accounts } }

/-- Python truthiness of an optional price used with the `or` fallback: the
value counts only when present and nonzero. -/
def orD (o : Option ℚ) (d : ℚ) : ℚ :=
  match o with
  | some x => if x = 0 then d else x
  | none => d

/-- LevelManager.get_next_level_price: the smallest configured level price
strictly above the given price (the source sorts the level keys and returns
the first match). -/
def get_next_level_price (e : Eng) (symbol : String) (price : ℚ) : Option ℚ :=
  (((lookupA e.levels symbol).getD []).map GridLevel.price).mergeSort (fun a b => decide (a ≤ b))
    |>.find? (fun p => decide (price < p))

/-- GridEngine.find_position_by_order: scan accounts in store order for the
one whose position carries the order id in the matching role; returns that
account (the source returns the aliased position together with it). -/
def find_position_by_order : List TradingAccount → String → String → Option TradingAccount
  | [], _, _ => none
  | a :: rest, order_id, order_type =>
    match a.long_usdt_position with
    | some position =>
      if (order_type = "close" ∧ position.close_order_id = some order_id)
          ∨ (order_type = "averaging" ∧ position.averaging_order_id = some order_id)
      then some a
      else find_position_by_order rest order_id order_type
    | none => find_position_by_order rest order_id order_type

/-- GridEngine.place_order: ask the exchange for a limit order; on a returned
order id, record the order in active_orders and order_account_mapping; on an
exchange error the state is untouched and no id is returned. -/
def place_order (account_id symbol side : String) (quantity price : ℚ)
    (purpose : String) (level_price : Option ℚ) (e : Eng) (σ : List XResp) :
    Option String × Eng × List XResp :=
  match σ with
  | XResp.pOk order_id :: σ' =>
    let order : Order :=
      { order_id := order_id, symbol := symbol, side := side, order_type := "Limit"
        quantity := quantity, price := price, purpose := purpose
        account_id := account_id, level_price := level_price }
    (some order_id,
      { e with
        active_orders := insA order_id order e.active_orders
        order_account_mapping := insA order_id account_id e.order_account_mapping },
      σ')
  | _ :: σ' => (none, e, σ')
  | [] => (none, e, [])

/-- GridEngine.place_order_with_usdt_volume: derive the quantity from the
notional volume; refuse without touching the exchange when it is not
positive. -/
def place_order_with_usdt_volume (account_id symbol side : String)
    (usdt_volume price : ℚ) (purpose : String) (level_price : Option ℚ)
    (e : Eng) (σ : List XResp) : Option String × Eng × List XResp :=
  let quantity := calculate_quantity_from_usdt usdt_volume price
  if quantity ≤ 0 then (none, e, σ)
  else place_order account_id symbol side quantity price purpose level_price e σ

/-- GridEngine.cancel_and_cleanup_order: request cancellation; when the call
returns (either way) pop the order from both tracking maps, and on reported
success refresh the account balance; when the cancellation call itself raises,
the except clause returns False with the maps untouched.  A balance-refresh
error after the pops is caught by the same except clause. -/
def cancel_and_cleanup_order (order_id _symbol account_id : String)
    (e : Eng) (σ : List XResp) : Bool × Eng × List XResp :=
  match σ with
  | XResp.cOk success :: σ' =>
    let e1 :=
      { e with
        active_orders := delA order_id e.active_orders
        order_account_mapping := delA order_id e.order_account_mapping }
    if success then
      match lookupAcct e1.aq.accounts account_id with
      | some _ =>
        match σ' with
        | XResp.bOk v :: σ'' =>
          (true,
            { e1 with aq :=
              { e1.aq with accounts := updAcct account_id (fun a => { a with balance := v }) e1.aq.accounts } },
            σ'')
        | _ :: σ'' => (false, e1, σ'')
        | [] => (false, e1, [])
      | none => (true, e1, σ')
    else (false, e1, σ')
  | _ :: σ' => (false, e, σ')
  | [] => (false, e, [])

/-- Modelled from the spec: GridEngine.set_leverage_for_risk_zone is absent
from src (only its call site is); per the spec it only instructs the exchange
collaborator to set leverage on the account and has no engine-state effect. -/
def set_leverage_for_risk_zone (_account_id _symbol : String) (_leverage : ℚ) (e : Eng) : Eng :=
  e

/-- GridEngine.place_close_order for the position held by the given account:
price at the next configured level above entry in level mode (falling back to
breakeven), else at breakeven; on success record the close-order id on the
position. -/
def place_close_order (cfg : Config) (account_id : String) (e : Eng) (σ : List XResp) :
    Eng × List XResp :=
  match (lookupAcct e.aq.accounts account_id).bind TradingAccount.long_usdt_position with
  | none => (e, σ)
  | some position =>
    let breakeven := position.calculate_breakeven_price
    let close_price :=
      if cfg.PROFIT_CLOSE_MODE = "level" then
        orD (get_next_level_price e position.symbol position.entry_price) breakeven
      else breakeven
    match place_order account_id position.symbol "Sell" position.quantity close_price "close" none e σ with
    | (some order_id, e1, σ1) =>
      (updAcctPos account_id (fun p => { p with close_order_id := some order_id }) e1, σ1)
    | (none, e1, σ1) => (e1, σ1)

/-- GridEngine.place_averaging_order for the position held by the given
account: size from the configured multiplier at the dropped price; when the
exchange capacity check refuses or the cached balance cannot fund it, only
mark the position (degraded state); otherwise place the averaging order and
record its id.  The capacity-check await is not wrapped in any try in this
function or its callers, so a raising response there (a wrong-kind or missing
script head) aborts the call: the trailing Boolean is false and the engine
state is as of the raise (unchanged, since the call precedes every mutation).
The order placement itself catches its own errors inside place_order. -/
def place_averaging_order (cfg : Config) (account_id : String) (e : Eng) (σ : List XResp) :
    Eng × List XResp × Bool :=
  match lookupAcct e.aq.accounts account_id with
  | none => (e, σ, true)
  | some account =>
    match account.long_usdt_position with
    | none => (e, σ, true)
    | some position =>
      let averaging_price := position.entry_price * (1 - cfg.AVERAGING_PRICE_DROP_PERCENT / 100)
      let pos_volume := position.quantity * position.entry_price
      let averaging_volume := pos_volume * (cfg.AVERAGING_MULTIPLIER - 1)
      let zone := get_risk_zone cfg position.symbol averaging_price
      let leverage := get_leverage_for_zone cfg zone
      let required_balance := averaging_volume / leverage
      match σ with
      | XResp.can can_place :: σ' =>
        if !can_place || decide (account.balance < required_balance) then
          let cp := (lookupA e.current_prices position.symbol).getD 0
          let roi := position.calculate_roi cp * 100
          (updAcctPos account_id
            (fun p => { p with
              averaging_failed_insufficient_balance := true
              last_averaging_alert_roi := some roi }) e, σ', true)
        else
          match place_order_with_usdt_volume account_id position.symbol "Buy"
              averaging_volume averaging_price "averaging" none e σ' with
          | (some order_id, e1, σ1) =>
            (updAcctPos account_id (fun p => { p with averaging_order_id := some order_id }) e1,
              σ1, true)
          | (none, e1, σ1) => (e1, σ1, true)
      | _ :: σ' => (e, σ', false)
      | [] => (e, [], false)

/-- GridEngine.place_breakeven_close_order: a close order at the running
average entry price for the full running quantity. -/
def place_breakeven_close_order (account_id : String) (e : Eng) (σ : List XResp) :
    Eng × List XResp :=
  match (lookupAcct e.aq.accounts account_id).bind TradingAccount.long_usdt_position with
  | none => (e, σ)
  | some position =>
    let breakeven := position.calculate_breakeven_price
    match place_order account_id position.symbol "Sell" position.total_quantity breakeven "close" none e σ with
    | (some order_id, e1, σ1) =>
      (updAcctPos account_id (fun p => { p with close_order_id := some order_id }) e1, σ1)
    | (none, e1, σ1) => (e1, σ1)

/-- GridEngine.replace_grid_order: when the freed level still has capacity,
acquire any free account (required balance defaults to 0) and re-place a grid
order there; the acquisition is not undone when the placement then fails. -/
def replace_grid_order (cfg : Config) (level_price : ℚ) (symbol : String)
    (e : Eng) (σ : List XResp) : Eng × List XResp :=
  match getLevelE e symbol level_price with
  | none => (e, σ)
  | some level =>
    if !level.can_open_position then (e, σ)
    else
      match get_next_free_account 0 e.aq with
      | (none, _) => (e, σ)
      | (some account, aq1) =>
        let e1 := { e with aq := aq1 }
        let lc := get_level_config cfg symbol level_price
        match place_order_with_usdt_volume account.account_id symbol "Buy"
            lc.volume_usdt level_price "grid" (some level_price) e1 σ with
        | (_, e2, σ2) => (e2, σ2)

/-- GridEngine.place_new_grid_order_on_level: force the vacated level active,
and when it has capacity acquire any free account (required balance defaults
to 0) and place a fresh grid order. -/
def place_new_grid_order_on_level (cfg : Config) (level_price : ℚ) (symbol : String)
    (e : Eng) (σ : List XResp) : Eng × List XResp :=
  match getLevelE e symbol level_price with
  | none => (e, σ)
  | some level =>
    let e1 := updLevel symbol level_price (fun l => { l with is_active_long := true }) e
    if !level.can_open_position then (e1, σ)
    else
      match get_next_free_account 0 e1.aq with
      | (none, _) => (e1, σ)
      | (some account, aq1) =>
        let e2 := { e1 with aq := aq1 }
        let lc := get_level_config cfg symbol level_price
        match place_order_with_usdt_volume account.account_id symbol "Buy"
            lc.volume_usdt level_price "grid" (some level_price) e2 σ with
        | (_, e3, σ3) => (e3, σ3)

/-- GridEngine.handle_grid_order_fill: drop the fill when the account is
unknown or already holds a position (skipping the final mapping cleanup);
otherwise open the position on the account, bump the level counter, place the
close and conditional averaging orders, try to replace the consumed grid slot,
and finally drop the fill from the account mapping.  The handler has no
try/except of its own: when place_averaging_order raises (its uncaught
capacity-check call), the exception propagates out of this handler before the
grid-slot replacement and before the final mapping pop, with every mutation
made so far kept; the trailing Boolean is false in that case. -/
def handle_grid_order_fill (cfg : Config) (ord : Order) (e : Eng) (σ : List XResp) :
    Eng × List XResp × Bool :=
  match lookupAcct e.aq.accounts ord.account_id with
  | none => (e, σ, true)
  | some account =>
    match account.long_usdt_position with
    | some _ => (e, σ, true)
    | none =>
      let pos0 := mkPosition ord.symbol ord.quantity ord.price (orD ord.level_price ord.price)
      let lc := get_level_config cfg ord.symbol ord.price
      let pos := { pos0 with leverage := lc.leverage, risk_zone := lc.risk_zone }
      let e1 :=
        { e with aq :=
          { e.aq with accounts := updAcct ord.account_id (fun a => a.open_position pos) e.aq.accounts } }
      let e2 :=
        match ord.level_price with
        | some lp => if lp = 0 then e1 else updLevel ord.symbol lp GridLevel.open_position e1
        | none => e1
      let s3 := place_close_order cfg ord.account_id e2 σ
      let s4 := place_averaging_order cfg ord.account_id s3.1 s3.2
      if s4.2.2 then
        let s5 := replace_grid_order cfg (orD ord.level_price ord.price) ord.symbol s4.1 s4.2.1
        ({ s5.1 with order_account_mapping := delA ord.order_id s5.1.order_account_mapping },
          s5.2, true)
      else (s4.1, s4.2.1, false)

/-- GridEngine.handle_close_order_fill: drop the fill when no position owns
this close-order id (skipping the final mapping cleanup); otherwise cancel a
pending averaging order, detach the position, decrement the level counter,
return the account to the pool, try to re-open the level, and drop the fill
from the account mapping. -/
def handle_close_order_fill (cfg : Config) (ord : Order) (e : Eng) (σ : List XResp) :
    Eng × List XResp :=
  match find_position_by_order e.aq.accounts ord.order_id "close" with
  | none => (e, σ)
  | some account =>
    match account.long_usdt_position with
    | none => (e, σ)
    | some position =>
      let s1 :=
        match position.averaging_order_id with
        | some vid => (cancel_and_cleanup_order vid position.symbol account.account_id e σ).2
        | none => (e, σ)
      let level_price := position.level_price
      let e2 :=
        { s1.1 with aq :=
          { s1.1.aq with
            accounts := updAcct account.account_id TradingAccount.close_position s1.1.aq.accounts } }
      let e3 := updLevel position.symbol level_price GridLevel.close_position e2
      let e4 := { e3 with aq := return_account_to_queue account e3.aq }
      let s5 := place_new_grid_order_on_level cfg level_price position.symbol e4 s1.2
      ({ s5.1 with order_account_mapping := delA ord.order_id s5.1.order_account_mapping }, s5.2)

/-- GridEngine.handle_averaging_order_fill: drop the fill when no position
owns this averaging-order id (skipping the final mapping cleanup); otherwise
fold the fill into the running averages, cancel the old close order, place the
breakeven close order, and drop the fill from the account mapping. -/
def handle_averaging_order_fill (_cfg : Config) (ord : Order) (e : Eng) (σ : List XResp) :
    Eng × List XResp :=
  match find_position_by_order e.aq.accounts ord.order_id "averaging" with
  | none => (e, σ)
  | some account =>
    match account.long_usdt_position with
    | none => (e, σ)
    | some position =>
      let e1 := updAcctPos account.account_id (fun p => p.add_averaging ord.quantity ord.price) e
      let s2 :=
        match position.close_order_id with
        | some cid => (cancel_and_cleanup_order cid position.symbol account.account_id e1 σ).2
        | none => (e1, σ)
      let s3 := place_breakeven_close_order account.account_id s2.1 s2.2
      ({ s3.1 with order_account_mapping := delA ord.order_id s3.1.order_account_mapping }, s3.2)

/-- GridEngine.handle_order_fill: dispatch on the free-form purpose string.
Only the grid handler can raise uncaught (through place_averaging_order); the
close and averaging handlers wrap every exchange call in functions that catch
their own errors, so they always run to completion. -/
def handle_order_fill (cfg : Config) (ord : Order) (e : Eng) (σ : List XResp) :
    Eng × List XResp × Bool :=
  if ord.purpose = "grid" then handle_grid_order_fill cfg ord e σ
  else if ord.purpose = "close" then
    let r := handle_close_order_fill cfg ord e σ
    (r.1, r.2, true)
  else if ord.purpose = "averaging" then
    let r := handle_averaging_order_fill cfg ord e σ
    (r.1, r.2, true)
  else (e, σ, true)

/-- Ascending insertion of a (distance, price) pair, matching the ascending
lexicographic sort applied by list.sort on such tuples. -/
def insPair (x : ℚ × ℚ) : List (ℚ × ℚ) → List (ℚ × ℚ)
  | [] => [x]
  | y :: ys =>
    if x.1 < y.1 ∨ (x.1 = y.1 ∧ x.2 ≤ y.2) then x :: y :: ys else y :: insPair x ys

/-- Ascending sort of (distance, price) pairs. -/
def sortPairs : List (ℚ × ℚ) → List (ℚ × ℚ)
  | [] => []
  | x :: xs => insPair x (sortPairs xs)

/-- The per-level body of the placement cycle: compute the zone sizing and the
required balance, acquire an account at that minimum balance, run the
exchange-side capacity check, set leverage and place the grid order.  Note
that neither a refused capacity check nor a failed placement returns the
acquired account to the working set.  The capacity-check await has no
enclosing try, so a raising response there aborts the whole cycle (trailing
Boolean false; the returned count is meaningless on that path since the
source never returns), keeping the accounts acquired so far out of the pool;
the placement call catches its own errors inside place_order. -/
def place_grid_on_levels (cfg : Config) (symbol : String) :
    List ℚ → Eng → List XResp → ℕ × Eng × List XResp × Bool
  | [], e, σ => (0, e, σ, true)
  | price :: rest, e, σ =>
    let lc := get_level_config cfg symbol price
    let required_balance := lc.volume_usdt / lc.leverage
    match get_next_free_account required_balance e.aq with
    | (none, _) => place_grid_on_levels cfg symbol rest e σ
    | (some account, aq1) =>
      let e1 := { e with aq := aq1 }
      match σ with
      | XResp.can can_place :: σ' =>
        if can_place then
          let e2 := set_leverage_for_risk_zone account.account_id symbol lc.leverage e1
          let r := place_order_with_usdt_volume account.account_id symbol "Buy"
            lc.volume_usdt price "grid" (some price) e2 σ'
          let rec1 := place_grid_on_levels cfg symbol rest r.2.1 r.2.2
          ((if r.1.isSome then 1 else 0) + rec1.1, rec1.2)
        else place_grid_on_levels cfg symbol rest e1 σ'
      | _ :: σ' => (0, e1, σ', false)
      | [] => (0, e1, [], false)

/-- The per-symbol body of GridEngine.place_grid_orders: collect the active
levels with spare capacity, sort them by distance from the current price, and
try to place a grid order on each; an uncaught exception from the level loop
propagates, skipping the remaining symbols. -/
def place_grid_symbols (cfg : Config) :
    List String → Eng → List XResp → ℕ × Eng × List XResp × Bool
  | [], e, σ => (0, e, σ, true)
  | symbol :: rest, e, σ =>
    let current_price := (lookupA e.current_prices symbol).getD 0
    let symbol_levels := (lookupA e.levels symbol).getD []
    let active :=
      (symbol_levels.filter (fun l => l.is_active_long && l.can_open_position)).map
        (fun l => (|l.price - current_price|, l.price))
    let sorted := sortPairs active
    let r := place_grid_on_levels cfg symbol (sorted.map Prod.snd) e σ
    if r.2.2.2 then
      let r2 := place_grid_symbols cfg rest r.2.1 r.2.2.1
      (r.1 + r2.1, r2.2)
    else r

/-- GridEngine.place_grid_orders: the placement cycle over all configured
symbols, returning the number of orders placed (and whether the cycle ran to
completion rather than raising out to the main loop). -/
def place_grid_orders (cfg : Config) (e : Eng) (σ : List XResp) :
    ℕ × Eng × List XResp × Bool :=
  place_grid_symbols cfg cfg.SYMBOLS e σ

/-- The first loop of GridEngine.check_filled_orders over a snapshot of the
active orders: query each status (one Bool per snapshot entry), mark reported
fills, and pop them from active tracking. -/
def poll_collect : List (String × Order) → List Bool → Eng → List Order × Eng
  | [], _, e => ([], e)
  | _ :: _, [], e => ([], e)
  | (order_id, ord) :: rest, s :: ss, e =>
    if s then
      let e1 := { e with active_orders := delA order_id e.active_orders }
      match poll_collect rest ss e1 with
      | (fs, e2) => (ord.mark_filled :: fs, e2)
    else poll_collect rest ss e

/-- The second loop of GridEngine.check_filled_orders: dispatch every fill
collected by the first loop; an uncaught exception from a handler propagates,
leaving the remaining fills unhandled (their active entries already popped). -/
def handle_fills (cfg : Config) : List Order → Eng → List XResp → Eng × List XResp × Bool
  | [], e, σ => (e, σ, true)
  | ord :: rest, e, σ =>
    let r := handle_order_fill cfg ord e σ
    if r.2.2 then handle_fills cfg rest r.1 r.2.1 else r

/-- GridEngine.check_filled_orders: poll every tracked order (statuses listed
per snapshot entry) and dispatch the fills; a handler exception propagates
out of the whole poll step (trailing Boolean false). -/
def check_filled_orders (cfg : Config) (statuses : List Bool) (e : Eng) (σ : List XResp) :
    Eng × List XResp × Bool :=
  match poll_collect e.active_orders statuses e with
  | (fs, e1) => handle_fills cfg fs e1 σ

/-- GridLevel.check_activation_threshold applied to every level of a symbol,
as LevelManager.initialize_levels does. -/
def initialize_levels (cfg : Config) (symbol : String) (current_price : ℚ) (e : Eng) : Eng :=
  { e with levels := e.levels.map (fun sl =>
      if sl.1 = symbol then
        (sl.1, sl.2.map (fun l =>
          { l with is_active_long := l.check_activation_threshold current_price cfg.LEVEL_ACTIVATION_THRESHOLD }))
      else sl) }

/-- The engine state as built by the GridEngine, AccountQueue, LevelManager
and RiskZoneManager constructors before initialization. -/
def mkEngine (cfg : Config) : Eng :=
  { aq :=
    { accounts := cfg.ACCOUNT_IDS.map (fun id => { account_id := id })
      long_queue := cfg.ACCOUNT_IDS }
    levels := (cfg.SYMBOLS.zip cfg.GRID_LEVELS).map (fun sg =>
      (sg.1, sg.2.map (fun p => { price := p })))
    current_prices := []
    active_orders := []
    order_account_mapping := [] }

/-- Balance refresh of the account store, one response per account in store
order; a missing or failing response is caught and recorded as balance 0. -/
def setBalances : List TradingAccount → List (Option ℚ) → List TradingAccount
  | [], _ => []
  | rest, [] => rest
  | a :: rest, b :: bs => { a with balance := b.getD 0 } :: setBalances rest bs

/-- GridEngine.initialize: refresh every account balance (a failing balance
call is caught and recorded as balance 0), then fetch each symbol price,
cache it and run the level activation pass.  Balance responses are listed per
account and prices per symbol. -/
def initialize_engine (cfg : Config) (balances : List (Option ℚ)) (prices : List ℚ)
    (e : Eng) : Eng :=
  let withBalances :=
    { e with aq := { e.aq with accounts := setBalances e.aq.accounts balances } }
  (cfg.SYMBOLS.zip prices).foldl
    (fun acc sp =>
      initialize_levels cfg sp.1 sp.2
        { acc with current_prices := insA sp.1 sp.2 acc.current_prices })
    withBalances

/-- Folding a list of averaging fills (quantity, price) into a position, one
Position.add_averaging call per fill. -/
def applyAveragings (p : Position) (fills : List (ℚ × ℚ)) : Position :=
  fills.foldl (fun q f => q.add_averaging f.1 f.2) p

/-- Folding a list of counter operations into a grid level: true opens a
position, false closes one. -/
def applyLevelOps (l : GridLevel) (ops : List Bool) : GridLevel :=
  ops.foldl (fun l b => if b then l.open_position else l.close_position) l

section AssocLemmas

variable {α : Type}

theorem lookupA_insA_self (k : String) (v : α) (l : List (String × α)) :
    lookupA (insA k v l) k = some v := by
  induction l with
  | nil => simp [insA, lookupA]
  | cons p rest ih =>
    by_cases h : p.1 = k
    · simp [insA, h, lookupA]
    · simp [insA, h, lookupA, ih]

theorem lookupA_insA_ne (k : String) (v : α) (j : String) (l : List (String × α))
    (h : j ≠ k) : lookupA (insA k v l) j = lookupA l j := by
  have hkj : k ≠ j := Ne.symm h
  induction l with
  | nil => simp [insA, lookupA, hkj]
  | cons p rest ih =>
    by_cases hp : p.1 = k
    · have hpj : p.1 ≠ j := hp ▸ hkj
      simp [insA, hp, lookupA, hpj, hkj]
    · by_cases hj : p.1 = j
      · simp [insA, hp, lookupA, hj, h]
      · simp [insA, hp, lookupA, hj, ih]

theorem lookupA_delA_self (k : String) (l : List (String × α)) :
    lookupA (delA k l) k = none := by
  induction l with
  | nil => simp [delA, lookupA]
  | cons p rest ih =>
    by_cases hp : p.1 = k
    · simpa [delA, hp] using ih
    · simpa [delA, lookupA, hp] using ih

theorem lookupA_delA_ne (k j : String) (l : List (String × α)) (h : j ≠ k) :
    lookupA (delA k l) j = lookupA l j := by
  induction l with
  | nil => simp [delA, lookupA]
  | cons p rest ih =>
    by_cases hp : p.1 = k
    · have hpj : p.1 ≠ j := hp ▸ Ne.symm h
      simp [delA, lookupA, hp, hpj, ih, Ne.symm h]
    · by_cases hj : p.1 = j
      · simp [delA, lookupA, hp, hj, h]
      · simp [delA, lookupA, hp, hj, ih, h]

end AssocLemmas

section AveragingLemmas

/-- Running-total invariant of the averaging fold: starting from any position
with positive running quantity, folding fills with positive quantities yields
the expected total quantity and cost-weighted average. -/
theorem applyAveragings_spec :
    ∀ (fills : List (ℚ × ℚ)) (p : Position), 0 < p.total_quantity →
      (∀ f ∈ fills, 0 < f.1) →
      (applyAveragings p fills).total_quantity
          = p.total_quantity + (fills.map Prod.fst).sum ∧
      (applyAveragings p fills).average_entry_price
          = (p.average_entry_price * p.total_quantity
              + (fills.map (fun f => f.1 * f.2)).sum)
            / (p.total_quantity + (fills.map Prod.fst).sum) := by
  intro fills
  induction fills with
  | nil =>
    intro p hp _
    have hne : p.total_quantity ≠ 0 := ne_of_gt hp
    constructor
    · simp [applyAveragings]
    · simp [applyAveragings]
      field_simp
  | cons f rest ih =>
    intro p hp hall
    have hf : 0 < f.1 := hall f (List.mem_cons_self f rest)
    have hrest : ∀ g ∈ rest, 0 < g.1 := fun g hg => hall g (List.mem_cons_of_mem f hg)
    have hp' : 0 < (p.add_averaging f.1 f.2).total_quantity := by
      simp only [Position.add_averaging]
      linarith
    have hsum : (applyAveragings p (f :: rest)) = applyAveragings (p.add_averaging f.1 f.2) rest := by
      simp [applyAveragings]
    obtain ⟨ht, ha⟩ := ih (p.add_averaging f.1 f.2) hp' hrest
    have hne : p.total_quantity + f.1 ≠ 0 := by
      have : (0 : ℚ) < p.total_quantity + f.1 := by linarith
      exact ne_of_gt this
    constructor
    · rw [hsum, ht]
      simp only [Position.add_averaging, List.map_cons, List.sum_cons]
      ring
    · rw [hsum, ha]
      simp only [Position.add_averaging, List.map_cons, List.sum_cons]
      rw [div_mul_cancel₀ _ hne]
      congr 1
      · ring
      · ring

end AveragingLemmas

section AccountQueueLemmas

/-- The fold inside maxByBalance returns an element of the candidates that no
candidate strictly beats on balance, starting the scan from the seed. -/
theorem foldl_best_spec :
    ∀ (xs : List TradingAccount) (x : TradingAccount),
      ((xs.foldl (fun acc a => if acc.balance < a.balance then a else acc) x) = x
          ∨ (xs.foldl (fun acc a => if acc.balance < a.balance then a else acc) x) ∈ xs) ∧
      x.balance ≤ (xs.foldl (fun acc a => if acc.balance < a.balance then a else acc) x).balance ∧
      ∀ b ∈ xs, b.balance ≤ (xs.foldl (fun acc a => if acc.balance < a.balance then a else acc) x).balance := by
  intro xs
  induction xs with
  | nil => intro x; exact ⟨Or.inl rfl, le_refl _, by simp⟩
  | cons a xs ih =>
    intro x
    obtain ⟨hmem, hseed, hall⟩ := ih (if x.balance < a.balance then a else x)
    have hx : x.balance ≤ (if x.balance < a.balance then a else x).balance := by
      by_cases h : x.balance < a.balance
      · simp [h]; linarith
      · simp [h]
    have ha : a.balance ≤ (if x.balance < a.balance then a else x).balance := by
      by_cases h : x.balance < a.balance
      · simp [h]
      · simp [h]; linarith [not_lt.mp h]
    refine ⟨?_, ?_, ?_⟩
    · rcases hmem with h | h
      · by_cases hc : x.balance < a.balance
        · right; rw [List.foldl_cons, h]; simp [hc]
        · left; rw [List.foldl_cons, h]; simp [hc]
      · right; right; exact h
    · exact le_trans hx hseed
    · intro b hb
      rcases List.mem_cons.mp hb with h | h
      · subst h; exact le_trans ha hseed
      · exact hall b h

/-- maxByBalance picks a member maximal in balance. -/
theorem maxByBalance_spec (l : List TradingAccount) (m : TradingAccount)
    (h : maxByBalance l = some m) : m ∈ l ∧ ∀ b ∈ l, b.balance ≤ m.balance := by
  cases l with
  | nil => simp [maxByBalance] at h
  | cons x xs =>
    simp only [maxByBalance, Option.some.injEq] at h
    obtain ⟨hmem, hseed, hall⟩ := foldl_best_spec xs x
    subst h
    refine ⟨?_, ?_⟩
    · rcases hmem with h | h
      · rw [h]; exact List.mem_cons_self _ _
      · exact List.mem_cons_of_mem _ h
    · intro b hb
      rcases List.mem_cons.mp hb with h | h
      · subst h; exact hseed
      · exact hall b h

/-- maxByBalance is none exactly on the empty candidate list. -/
theorem maxByBalance_eq_none (l : List TradingAccount) :
    maxByBalance l = none ↔ l = [] := by
  cases l <;> simp [maxByBalance]

/-- Membership in the suitable list of get_next_free_account. -/
theorem mem_suitableAccounts (aq : AQ) (r : ℚ) (a : TradingAccount) :
    a ∈ suitableAccounts aq r
      ↔ a ∈ aq.long_queue.filterMap (lookupAcct aq.accounts)
          ∧ a.has_free_slot = true ∧ r ≤ a.balance := by
  simp [suitableAccounts, List.mem_filter, and_assoc]

end AccountQueueLemmas

/-- An empty engine state, used for concrete instantiations. -/
def engEmpty : Eng :=
  { aq := { accounts := [], long_queue := [] }
    levels := []
    current_prices := []
    active_orders := []
    order_account_mapping := [] }

/-- A single account with balance 1000 in a one-account pool (Scenario D of
the spec). -/
def acctD : TradingAccount := { account_id := "A1", balance := 1000 }

/-- The one-account pool holding acctD. -/
def aqD : AQ := { accounts := [acctD], long_queue := ["A1"] }

/-- C5: for every Position, after construction from an initial fill and after
folding any averaging fills with positive quantities, the average entry price
equals the quantity-weighted mean of exactly the fills folded in so far and
the total quantity equals their quantity sum. -/
theorem average_entry_price_spec (symbol : String) (q0 p0 lp : ℚ)
    (fills : List (ℚ × ℚ)) (hq0 : 0 < q0) (hf : ∀ f ∈ fills, 0 < f.1) :
    (applyAveragings (mkPosition symbol q0 p0 lp) fills).total_quantity
        = q0 + (fills.map Prod.fst).sum
      ∧ (applyAveragings (mkPosition symbol q0 p0 lp) fills).average_entry_price
        = (q0 * p0 + (fills.map (fun f => f.1 * f.2)).sum)
            / (q0 + (fills.map Prod.fst).sum) := by
  obtain ⟨ht, ha⟩ :=
    applyAveragings_spec fills (mkPosition symbol q0 p0 lp) (by simpa [mkPosition] using hq0) hf
  constructor
  · simpa [mkPosition] using ht
  · rw [ha]
    simp only [mkPosition]
    ring

/-- Witness for C5: Scenario C of the spec, entry price 100 with quantity 1
then an averaging fill of quantity 1 at price 90 gives average 95 and total
quantity 2. -/
theorem average_entry_price_witness :
    (0:ℚ) < 1
      ∧ (applyAveragings (mkPosition "SYM" 1 100 100) [(1, 90)]).average_entry_price = 95
      ∧ (applyAveragings (mkPosition "SYM" 1 100 100) [(1, 90)]).total_quantity = 2 := by
  have h := average_entry_price_spec "SYM" 1 100 100 [(1, 90)] (by norm_num)
    (by intro f hf; rw [List.mem_singleton] at hf; rw [hf]; norm_num)
  refine ⟨by norm_num, ?_, ?_⟩
  · rw [h.2]; norm_num
  · rw [h.1]; norm_num

/-- C6: get_next_free_account returns an account of the working set that has
a free slot and meets the balance requirement, maximal in balance among all
such accounts, and removes exactly it from the working set; when no
working-set account qualifies it returns none and leaves the pool unchanged. -/
theorem get_next_free_account_spec (aq : AQ) (r : ℚ) :
    (∀ a, (get_next_free_account r aq).1 = some a →
        a.has_free_slot = true ∧ r ≤ a.balance
          ∧ a ∈ aq.long_queue.filterMap (lookupAcct aq.accounts)
          ∧ (∀ b ∈ aq.long_queue.filterMap (lookupAcct aq.accounts),
              b.has_free_slot = true → r ≤ b.balance → b.balance ≤ a.balance)
          ∧ (get_next_free_account r aq).2.long_queue = aq.long_queue.erase a.account_id
          ∧ (get_next_free_account r aq).2.accounts = aq.accounts)
    ∧ ((∀ b ∈ aq.long_queue.filterMap (lookupAcct aq.accounts),
          ¬(b.has_free_slot = true ∧ r ≤ b.balance)) →
        (get_next_free_account r aq).1 = none ∧ (get_next_free_account r aq).2 = aq) := by
  constructor
  · intro a ha
    cases hm : maxByBalance (suitableAccounts aq r) with
    | none => simp [get_next_free_account, hm] at ha
    | some m =>
      simp only [get_next_free_account, hm, Option.some.injEq] at ha
      obtain ⟨hmem, hmax⟩ := maxByBalance_spec _ _ hm
      rw [ha] at hmem hmax
      obtain ⟨hq1, hq2, hq3⟩ := (mem_suitableAccounts aq r a).mp hmem
      refine ⟨hq2, hq3, hq1, ?_, ?_, ?_⟩
      · intro b hb hfree hbal
        exact hmax b ((mem_suitableAccounts aq r b).mpr ⟨hb, hfree, hbal⟩)
      · simp [get_next_free_account, hm, ha]
      · simp [get_next_free_account, hm]
  · intro hnone
    have hempty : suitableAccounts aq r = [] := by
      apply List.eq_nil_iff_forall_not_mem.mpr
      intro a ha
      obtain ⟨h1, h2, h3⟩ := (mem_suitableAccounts aq r a).mp ha
      exact hnone a h1 ⟨h2, h3⟩
    rw [get_next_free_account, hempty]
    exact ⟨rfl, rfl⟩

/-- Witness for C6: Scenario D of the spec, sole account with balance 1000
and required balance 1200: no account is returned and the pool is unchanged. -/
theorem get_next_free_account_witness :
    (get_next_free_account 1200 aqD).1 = none ∧ (get_next_free_account 1200 aqD).2 = aqD :=
  (get_next_free_account_spec aqD 1200).2 (of_decide_eq_true (by with_unfolding_all rfl))

/-- C7: releasing an account twice in a row leaves the working set containing
it exactly once; releasing an account already present is a no-op.  (Reachable
working sets hold each account id at most once, which is the stated
hypothesis.) -/
theorem return_account_idempotent (aq : AQ) (a : TradingAccount)
    (h : aq.long_queue.count a.account_id ≤ 1) :
    (return_account_to_queue a (return_account_to_queue a aq)).long_queue.count a.account_id
      = 1 := by
  by_cases hm : a.account_id ∈ aq.long_queue
  · have h1 : return_account_to_queue a aq = aq := by simp [return_account_to_queue, hm]
    rw [h1, h1]
    have hpos : 0 < aq.long_queue.count a.account_id := List.count_pos_iff.mpr hm
    omega
  · have h1 : return_account_to_queue a aq
        = { aq with long_queue := aq.long_queue ++ [a.account_id] } := by
      simp [return_account_to_queue, hm]
    have hm2 : a.account_id ∈ aq.long_queue ++ [a.account_id] := by simp
    rw [h1]
    have h2 : return_account_to_queue a { aq with long_queue := aq.long_queue ++ [a.account_id] }
        = { aq with long_queue := aq.long_queue ++ [a.account_id] } := by
      simp [return_account_to_queue, hm2]
    rw [h2]
    have hzero : aq.long_queue.count a.account_id = 0 := List.count_eq_zero.mpr hm
    simp [List.count_append, hzero]

/-- Witness for C7: a concrete one-account pool. -/
theorem return_account_idempotent_witness :
    aqD.long_queue.count acctD.account_id ≤ 1
      ∧ (return_account_to_queue acctD (return_account_to_queue acctD aqD)).long_queue.count
          acctD.account_id = 1 :=
  ⟨by decide, return_account_idempotent aqD acctD (by decide)⟩

/-- Counterexample for C8: at volume 1.9 and price 1000 the code computes a
quantity of 0.002 (rounding to the nearest 0.001), while truncation toward
zero of volume / price at three decimals gives 0.001. -/
theorem quantity_rounded_not_truncated_cx :
    ((lookupA (place_order_with_usdt_volume "A1" "S" "Buy" (19/10) 1000 "grid" (some 1000)
        engEmpty [XResp.pOk "O1"]).2.1.active_orders "O1").map Order.quantity
      = some (1/500))
    ∧ specTruncate3 ((19/10) / 1000) = 1/1000
    ∧ ((1:ℚ)/500) ≠ 1/1000 :=
  of_decide_eq_true (by set_option maxRecDepth 4000 in with_unfolding_all rfl)

/-- C8 amended: the quantity of a placed grid buy order equals volume / price
rounded to the nearest 0.001 (ties to even), not truncated. -/
theorem placed_quantity_is_rounded (account_id symbol side purpose : String)
    (lp : Option ℚ) (vol price : ℚ) (oid : String) (e : Eng) (σ : List XResp)
    (hq : 0 < calculate_quantity_from_usdt vol price) :
    (lookupA (place_order_with_usdt_volume account_id symbol side vol price purpose lp e
        (XResp.pOk oid :: σ)).2.1.active_orders oid).map Order.quantity
      = some (((roundHalfEven (vol / price * 1000) : ℤ) : ℚ) / 1000) := by
  have hq' : ¬ calculate_quantity_from_usdt vol price ≤ 0 := not_le.mpr hq
  simp only [place_order_with_usdt_volume, hq', if_false]
  simp [place_order, lookupA_insA_self, calculate_quantity_from_usdt]

/-- Witness for C8's amended theorem at volume 1.9, price 1000. -/
theorem placed_quantity_is_rounded_witness :
    0 < calculate_quantity_from_usdt (19/10) 1000
      ∧ (lookupA (place_order_with_usdt_volume "A1" "S" "Buy" (19/10) 1000 "grid" (some 1000)
          engEmpty (XResp.pOk "O1" :: [])).2.1.active_orders "O1").map Order.quantity
        = some (((roundHalfEven ((19/10) / 1000 * 1000) : ℤ) : ℚ) / 1000) :=
  ⟨of_decide_eq_true (by with_unfolding_all rfl),
    placed_quantity_is_rounded "A1" "S" "Buy" "grid" (some 1000) (19/10) 1000 "O1" engEmpty []
      (of_decide_eq_true (by with_unfolding_all rfl))⟩

/-- C10: the open-position counter of a GridLevel is never driven negative:
closing at counter zero leaves it at zero, and any sequence of open and close
operations from a nonnegative counter keeps it nonnegative. -/
theorem positions_count_never_negative :
    (∀ l : GridLevel, l.positions_count = 0 → (l.close_position).positions_count = 0)
    ∧ (∀ (ops : List Bool) (l : GridLevel), 0 ≤ l.positions_count →
        0 ≤ (applyLevelOps l ops).positions_count) := by
  constructor
  · intro l h
    simp [GridLevel.close_position, h]
  · intro ops
    induction ops with
    | nil => intro l h; simpa [applyLevelOps] using h
    | cons b ops ih =>
      intro l h
      have hstep : 0 ≤ (if b then l.open_position else l.close_position).positions_count := by
        cases b
        · simp only [Bool.false_eq_true, if_false, GridLevel.close_position]
          by_cases hc : 0 < l.positions_count
          · simp only [hc, if_true]; omega
          · simp only [hc, if_false]; omega
        · simp only [if_true, GridLevel.open_position]; omega
      have hfold : applyLevelOps l (b :: ops)
          = applyLevelOps (if b then l.open_position else l.close_position) ops := by
        simp [applyLevelOps]
      rw [hfold]
      exact ih _ hstep

/-- Witness for C10 on a fresh level and a concrete operation sequence
containing a close at counter zero. -/
theorem positions_count_never_negative_witness :
    (({ price := 100 } : GridLevel).close_position).positions_count = 0
      ∧ (0:ℤ) ≤ (applyLevelOps ({ price := 100 } : GridLevel) [false, true, false, false]).positions_count :=
  ⟨positions_count_never_negative.1 _ (by decide),
    positions_count_never_negative.2 _ _ (by decide)⟩


/-- A two-account configuration with a single symbol S and one grid level at
price 100 of capacity 1: leverage 1 and notional volume 100 in every risk
zone, activation threshold 1 percent, breakeven close mode. -/
def cfgTwo : Config :=
  { ACCOUNT_IDS := ["A1", "A2"]
    SYMBOLS := ["S"]
    GRID_LEVELS := [[100]]
    LEVEL_ACTIVATION_THRESHOLD := 1/100
    OVERSOLD_ZONE_BOUNDARIES := [[50]]
    OVERBOUGHT_ZONE_BOUNDARIES := [[200]]
    OVERSOLD_ZONE_LEVERAGE := 1
    OVERBOUGHT_ZONE_LEVERAGE := 1
    NEUTRAL_ZONE_LEVERAGE := 1
    OVERSOLD_ZONE_VOLUME_USDT := 100
    OVERBOUGHT_ZONE_VOLUME_USDT := 100
    NEUTRAL_ZONE_VOLUME_USDT := 100
    AVERAGING_PRICE_DROP_PERCENT := 2
    AVERAGING_MULTIPLIER := 2
    PROFIT_CLOSE_MODE := "breakeven" }

/-- The same configuration restricted to the single account A1. -/
def cfgOne : Config :=
  { cfgTwo with ACCOUNT_IDS := ["A1"] }

/-- C1 trace, step 0: initialization at price 102 activates the level at 100
(deviation 2 percent above the 1 percent threshold); both accounts hold 1000. -/
def c1e0 : Eng := initialize_engine cfgTwo [some 1000, some 1000] [102] (mkEngine cfgTwo)

/-- C1 trace, step 1: first placement cycle puts grid order O1 on account A1
at level 100 (capacity check passes: counter 0 < 1). -/
def c1e1 : Eng := (place_grid_orders cfgTwo c1e0 [XResp.can true, XResp.pOk "O1"]).2.1

/-- C1 trace, step 2: O1 has not filled yet, and the next placement cycle
sees the level still active with counter 0 < 1, so it places a second grid
order O2 on account A2 at the same level. -/
def c1e2 : Eng := (place_grid_orders cfgTwo c1e1 [XResp.can true, XResp.pOk "O2"]).2.1

/-- C1 trace, step 3: the exchange reports both O1 and O2 filled in one poll;
each grid-fill handler increments the level counter once (close and averaging
orders C1/V1 and C2/V2 are placed for the two new positions; the grid-slot
replacement is refused for lack of capacity). -/
def c1e3 : Eng :=
  (check_filled_orders cfgTwo [true, true] c1e2
    [XResp.pOk "C1", XResp.can true, XResp.pOk "V1",
     XResp.pOk "C2", XResp.can true, XResp.pOk "V2"]).1

/-- C1: the open-position count of the level at price 100 reaches 2 while its
configured capacity is 1 - the capacity invariant is violated on a reachable
state (two placement cycles whose pending grid orders both fill). -/
theorem grid_level_capacity_exceeded :
    (getLevelE c1e3 "S" 100).map GridLevel.positions_count = some 2
      ∧ (getLevelE c1e3 "S" 100).map GridLevel.max_positions = some 1 :=
  of_decide_eq_true (by with_unfolding_all rfl)

/-- C2 trace, step 0: single account A1 with balance 1000; the level at 100
is active after initialization at price 102. -/
def c2e0 : Eng := initialize_engine cfgOne [some 1000] [102] (mkEngine cfgOne)

/-- C2 trace, step 1: a placement cycle in which the exchange accepts the
account for the position but the order placement call raises. -/
def c2e1 : ℕ × Eng × List XResp × Bool :=
  place_grid_orders cfgOne c2e0 [XResp.can true, XResp.pErr]

/-- C2: before the cycle the pool holds A1; the placement fails, no order is
produced, and the acquired account is not returned: the pool is left empty,
not unchanged as the claim states. -/
theorem failed_placement_leaks_account :
    c2e0.aq.long_queue = ["A1"]
      ∧ c2e1.1 = 0
      ∧ c2e1.2.1.active_orders = []
      ∧ c2e1.2.1.aq.long_queue = [] :=
  of_decide_eq_true (by with_unfolding_all rfl)

/-- C3 and C4 trace, step 1: grid order O1 is placed on the sole account A1. -/
def c3e1 : Eng := (place_grid_orders cfgOne c2e0 [XResp.can true, XResp.pOk "O1"]).2.1

/-- C3 trace, step 2: O1 fills; the handler opens the position on A1, places
close order C1 and averaging order V1, and cleans O1 out of both maps. -/
def c3e2 : Eng :=
  (check_filled_orders cfgOne [true] c3e1
    [XResp.pOk "C1", XResp.can true, XResp.pOk "V1"]).1

/-- C3 trace, step 3: the averaging order V1 fills; the handler folds it in
and tries to cancel the old close order C1, but the exchange cancel call
raises, so C1 stays tracked in both maps; the replacement breakeven close
order C2 is placed and becomes the position close order. -/
def c3e3 : Eng :=
  (check_filled_orders cfgOne [false, true] c3e2 [XResp.cErr, XResp.pOk "C2"]).1

/-- C3 trace, step 4: the stale close order C1 now fills; the poll pops it
from active orders, but the close handler cannot locate a position whose
close-order id is C1 (it is C2 now) and drops the fill, skipping the
account-mapping cleanup. -/
def c3e4 : Eng := (check_filled_orders cfgOne [true, false] c3e3 []).1

/-- C3: after the dropped close fill, key C1 is still present in the
order-to-account mapping but absent from active orders - a dangling entry on
a reachable state. -/
theorem dropped_fill_leaves_dangling_mapping :
    lookupA c3e4.order_account_mapping "C1" = some "A1"
      ∧ lookupA c3e4.active_orders "C1" = none :=
  of_decide_eq_true (by with_unfolding_all rfl)

/-- C4: calling cancel_and_cleanup_order for the tracked order O1 while the
exchange cancellation call raises leaves O1 present in both the active-orders
map and the account mapping, contradicting the claim that O1 is absent from
both after any call. -/
theorem cancel_exception_leaves_tracking :
    (lookupA (cancel_and_cleanup_order "O1" "S" "A1" c3e1 [XResp.cErr]).2.1.active_orders
        "O1").isSome = true
      ∧ lookupA (cancel_and_cleanup_order "O1" "S" "A1" c3e1 [XResp.cErr]).2.1.order_account_mapping
          "O1" = some "A1" :=
  of_decide_eq_true (by with_unfolding_all rfl)


/-- The tracking-map consistency invariant of the engine state: every key of
the order-to-account mapping is also a key of the active-orders map. -/
def mapsCons (e : Eng) : Prop :=
  ∀ k, (lookupA e.order_account_mapping k).isSome = true →
    (lookupA e.active_orders k).isSome = true

/-- Consistency up to an allowance predicate: mapping keys are active keys,
except possibly for keys satisfying P (used for a fill already popped from
active tracking but not yet cleaned from the mapping). -/
def mapsConsUpTo (e : Eng) (P : String → Prop) : Prop :=
  ∀ k, (lookupA e.order_account_mapping k).isSome = true →
    (lookupA e.active_orders k).isSome = true ∨ P k

theorem mapsCons_upTo {e : Eng} {P : String → Prop} (h : mapsCons e) : mapsConsUpTo e P :=
  fun k hk => Or.inl (h k hk)

theorem mapsCons_of_upTo_false {e : Eng} (h : mapsConsUpTo e (fun _ => False)) : mapsCons e :=
  fun k hk => (h k hk).elim id False.elim

/-- Inserting the same key into both maps preserves consistency. -/
theorem mapsConsUpTo_ins {e : Eng} {P : String → Prop} (k : String) (o : Order) (acct : String)
    (h : mapsConsUpTo e P) :
    mapsConsUpTo
      { e with active_orders := insA k o e.active_orders
               order_account_mapping := insA k acct e.order_account_mapping } P := by
  intro j hj
  by_cases hk : j = k
  · subst hk
    left
    simp [lookupA_insA_self]
  · simp only at hj
    rw [lookupA_insA_ne k acct j _ hk] at hj
    rcases h j hj with hA | hP
    · left
      simpa [lookupA_insA_ne k o j _ hk] using hA
    · right; exact hP

/-- Deleting the same key from both maps preserves consistency. -/
theorem mapsConsUpTo_del {e : Eng} {P : String → Prop} (k : String)
    (h : mapsConsUpTo e P) :
    mapsConsUpTo
      { e with active_orders := delA k e.active_orders
               order_account_mapping := delA k e.order_account_mapping } P := by
  intro j hj
  by_cases hk : j = k
  · subst hk
    simp only at hj
    rw [lookupA_delA_self] at hj
    simp at hj
  · simp only at hj
    rw [lookupA_delA_ne k j _ hk] at hj
    rcases h j hj with hA | hP
    · left
      simpa [lookupA_delA_ne k j _ hk] using hA
    · right; exact hP

/-- Deleting an allowed key from the mapping only discharges its allowance. -/
theorem mapsConsUpTo_delMapping {e : Eng} {P : String → Prop} (f : String)
    (h : mapsConsUpTo e (fun k => k = f ∨ P k)) :
    mapsConsUpTo { e with order_account_mapping := delA f e.order_account_mapping } P := by
  intro j hj
  by_cases hk : j = f
  · subst hk
    simp only at hj
    rw [lookupA_delA_self] at hj
    simp at hj
  · simp only at hj
    rw [lookupA_delA_ne f j _ hk] at hj
    rcases h j hj with hA | hP
    · left; exact hA
    · rcases hP with rfl | hp
      · exact absurd rfl hk
      · right; exact hp

/-- Updates that do not touch the two tracking maps preserve consistency. -/
theorem mapsConsUpTo_aq {e : Eng} {P : String → Prop} (aq1 : AQ)
    (h : mapsConsUpTo e P) : mapsConsUpTo { e with aq := aq1 } P :=
  fun k hk => h k hk

theorem mapsConsUpTo_updLevel {e : Eng} {P : String → Prop} (symbol : String) (price : ℚ)
    (f : GridLevel → GridLevel) (h : mapsConsUpTo e P) :
    mapsConsUpTo (updLevel symbol price f e) P :=
  fun k hk => h k hk

theorem mapsConsUpTo_updAcctPos {e : Eng} {P : String → Prop} (account_id : String)
    (f : Position → Position) (h : mapsConsUpTo e P) :
    mapsConsUpTo (updAcctPos account_id f e) P :=
  fun k hk => h k hk


/-- place_order preserves map consistency: it either does nothing or inserts
the new order id into both maps. -/
theorem place_order_pres {P : String → Prop} (account_id symbol side : String)
    (quantity price : ℚ) (purpose : String) (lp : Option ℚ) (e : Eng) (σ : List XResp)
    (h : mapsConsUpTo e P) :
    mapsConsUpTo (place_order account_id symbol side quantity price purpose lp e σ).2.1 P := by
  cases σ with
  | nil => simpa [place_order] using h
  | cons r σ1 =>
    cases r with
    | pOk oid =>
      simp only [place_order]
      exact mapsConsUpTo_ins oid _ account_id h
    | pErr => simpa [place_order] using h
    | cOk b => simpa [place_order] using h
    | cErr => simpa [place_order] using h
    | bOk v => simpa [place_order] using h
    | bErr => simpa [place_order] using h
    | can b => simpa [place_order] using h

/-- place_order_with_usdt_volume preserves map consistency. -/
theorem place_order_with_usdt_volume_pres {P : String → Prop}
    (account_id symbol side : String) (usdt_volume price : ℚ) (purpose : String)
    (lp : Option ℚ) (e : Eng) (σ : List XResp) (h : mapsConsUpTo e P) :
    mapsConsUpTo
      (place_order_with_usdt_volume account_id symbol side usdt_volume price purpose lp e σ).2.1
      P := by
  by_cases hq : calculate_quantity_from_usdt usdt_volume price ≤ 0
  · simpa [place_order_with_usdt_volume, hq] using h
  · simp only [place_order_with_usdt_volume, hq, if_false]
    exact place_order_pres account_id symbol side _ price purpose lp e σ h

/-- cancel_and_cleanup_order preserves map consistency: it either does
nothing or deletes the order id from both maps. -/
theorem cancel_and_cleanup_order_pres {P : String → Prop}
    (order_id symbol account_id : String) (e : Eng) (σ : List XResp)
    (h : mapsConsUpTo e P) :
    mapsConsUpTo (cancel_and_cleanup_order order_id symbol account_id e σ).2.1 P := by
  cases σ with
  | nil => simpa [cancel_and_cleanup_order] using h
  | cons r σ1 =>
    cases r with
    | cOk b =>
      cases b with
      | false =>
        simp only [cancel_and_cleanup_order, Bool.false_eq_true, if_false]
        exact mapsConsUpTo_del order_id h
      | true =>
        simp only [cancel_and_cleanup_order, if_true]
        cases hl : lookupAcct e.aq.accounts account_id with
        | none =>
          simp only [hl]
          exact mapsConsUpTo_del order_id h
        | some a =>
          simp only [hl]
          cases σ1 with
          | nil => exact mapsConsUpTo_del order_id h
          | cons r2 σ2 =>
            cases r2 with
            | bOk v => exact mapsConsUpTo_aq _ (mapsConsUpTo_del order_id h)
            | pOk oid => exact mapsConsUpTo_del order_id h
            | pErr => exact mapsConsUpTo_del order_id h
            | cOk b2 => exact mapsConsUpTo_del order_id h
            | cErr => exact mapsConsUpTo_del order_id h
            | bErr => exact mapsConsUpTo_del order_id h
            | can b2 => exact mapsConsUpTo_del order_id h
    | pOk oid => simpa [cancel_and_cleanup_order] using h
    | pErr => simpa [cancel_and_cleanup_order] using h
    | cErr => simpa [cancel_and_cleanup_order] using h
    | bOk v => simpa [cancel_and_cleanup_order] using h
    | bErr => simpa [cancel_and_cleanup_order] using h
    | can b => simpa [cancel_and_cleanup_order] using h

/-- place_close_order preserves map consistency. -/
theorem place_close_order_pres {P : String → Prop} (cfg : Config) (account_id : String)
    (e : Eng) (σ : List XResp) (h : mapsConsUpTo e P) :
    mapsConsUpTo (place_close_order cfg account_id e σ).1 P := by
  cases hpos : (lookupAcct e.aq.accounts account_id).bind TradingAccount.long_usdt_position with
  | none => simpa [place_close_order, hpos] using h
  | some position =>
    have hpres := place_order_pres (P := P) account_id position.symbol "Sell"
      position.quantity
      (if cfg.PROFIT_CLOSE_MODE = "level" then
        orD (get_next_level_price e position.symbol position.entry_price)
          position.calculate_breakeven_price
       else position.calculate_breakeven_price)
      "close" none e σ h
    rcases hpo : place_order account_id position.symbol "Sell" position.quantity
        (if cfg.PROFIT_CLOSE_MODE = "level" then
          orD (get_next_level_price e position.symbol position.entry_price)
            position.calculate_breakeven_price
         else position.calculate_breakeven_price)
        "close" none e σ with ⟨oid, e1, σ1⟩
    rw [hpo] at hpres
    cases oid with
    | none => simpa [place_close_order, hpos, hpo] using hpres
    | some o =>
      simp only [place_close_order, hpos, hpo]
      exact mapsConsUpTo_updAcctPos account_id _ hpres

/-- place_breakeven_close_order preserves map consistency. -/
theorem place_breakeven_close_order_pres {P : String → Prop} (account_id : String)
    (e : Eng) (σ : List XResp) (h : mapsConsUpTo e P) :
    mapsConsUpTo (place_breakeven_close_order account_id e σ).1 P := by
  cases hpos : (lookupAcct e.aq.accounts account_id).bind TradingAccount.long_usdt_position with
  | none => simpa [place_breakeven_close_order, hpos] using h
  | some position =>
    have hpres := place_order_pres (P := P) account_id position.symbol "Sell"
      position.total_quantity position.calculate_breakeven_price "close" none e σ h
    rcases hpo : place_order account_id position.symbol "Sell" position.total_quantity
        position.calculate_breakeven_price "close" none e σ with ⟨oid, e1, σ1⟩
    rw [hpo] at hpres
    cases oid with
    | none => simpa [place_breakeven_close_order, hpos, hpo] using hpres
    | some o =>
      simp only [place_breakeven_close_order, hpos, hpo]
      exact mapsConsUpTo_updAcctPos account_id _ hpres

/-- place_averaging_order preserves map consistency. -/
theorem place_averaging_order_pres {P : String → Prop} (cfg : Config) (account_id : String)
    (e : Eng) (σ : List XResp) (h : mapsConsUpTo e P) :
    mapsConsUpTo (place_averaging_order cfg account_id e σ).1 P := by
  cases hacc : lookupAcct e.aq.accounts account_id with
  | none => simpa [place_averaging_order, hacc] using h
  | some account =>
    cases hpos : account.long_usdt_position with
    | none => simpa [place_averaging_order, hacc, hpos] using h
    | some position =>
      cases σ with
      | nil => simpa [place_averaging_order, hacc, hpos] using h
      | cons r σ1 =>
        cases r with
        | can can_place =>
          simp only [place_averaging_order, hacc, hpos]
          by_cases hb : (!can_place
              || decide (account.balance
                  < position.quantity * position.entry_price * (cfg.AVERAGING_MULTIPLIER - 1)
                    / get_leverage_for_zone cfg
                        (get_risk_zone cfg position.symbol
                          (position.entry_price
                            * (1 - cfg.AVERAGING_PRICE_DROP_PERCENT / 100))))) = true
          · simp only [hb, if_true]
            exact mapsConsUpTo_updAcctPos account_id _ h
          · simp only [hb, if_false]
            have hpres := place_order_with_usdt_volume_pres (P := P) account_id position.symbol
              "Buy" (position.quantity * position.entry_price * (cfg.AVERAGING_MULTIPLIER - 1))
              (position.entry_price * (1 - cfg.AVERAGING_PRICE_DROP_PERCENT / 100))
              "averaging" none e σ1 h
            rcases hpo : place_order_with_usdt_volume account_id position.symbol "Buy"
                (position.quantity * position.entry_price * (cfg.AVERAGING_MULTIPLIER - 1))
                (position.entry_price * (1 - cfg.AVERAGING_PRICE_DROP_PERCENT / 100))
                "averaging" none e σ1 with ⟨oid, e1, σ2⟩
            rw [hpo] at hpres
            cases oid with
            | none => simpa using hpres
            | some o => exact mapsConsUpTo_updAcctPos account_id _ hpres
        | pOk oid => simpa [place_averaging_order, hacc, hpos] using h
        | pErr => simpa [place_averaging_order, hacc, hpos] using h
        | cOk b => simpa [place_averaging_order, hacc, hpos] using h
        | cErr => simpa [place_averaging_order, hacc, hpos] using h
        | bOk v => simpa [place_averaging_order, hacc, hpos] using h
        | bErr => simpa [place_averaging_order, hacc, hpos] using h

/-- replace_grid_order preserves map consistency. -/
theorem replace_grid_order_pres {P : String → Prop} (cfg : Config) (level_price : ℚ)
    (symbol : String) (e : Eng) (σ : List XResp) (h : mapsConsUpTo e P) :
    mapsConsUpTo (replace_grid_order cfg level_price symbol e σ).1 P := by
  cases hlv : getLevelE e symbol level_price with
  | none => simpa [replace_grid_order, hlv] using h
  | some level =>
    by_cases hco : level.can_open_position = true
    · simp only [replace_grid_order, hlv, hco, Bool.not_true, Bool.false_eq_true, if_false]
      rcases hget : get_next_free_account 0 e.aq with ⟨acct, aq1⟩
      cases acct with
      | none => simpa [hget] using h
      | some account =>
        simp only [hget]
        have h1 : mapsConsUpTo { e with aq := aq1 } P := mapsConsUpTo_aq aq1 h
        have hpres := place_order_with_usdt_volume_pres (P := P) account.account_id symbol
          "Buy" (get_level_config cfg symbol level_price).volume_usdt level_price "grid"
          (some level_price) { e with aq := aq1 } σ h1
        rcases hpo : place_order_with_usdt_volume account.account_id symbol "Buy"
            (get_level_config cfg symbol level_price).volume_usdt level_price "grid"
            (some level_price) { e with aq := aq1 } σ with ⟨oid, e2, σ2⟩
        rw [hpo] at hpres
        simpa [hpo] using hpres
    · have hco2 : level.can_open_position = false := by
        cases hx : level.can_open_position
        · rfl
        · exact absurd hx hco
      simpa [replace_grid_order, hlv, hco2] using h

/-- place_new_grid_order_on_level preserves map consistency. -/
theorem place_new_grid_order_on_level_pres {P : String → Prop} (cfg : Config)
    (level_price : ℚ) (symbol : String) (e : Eng) (σ : List XResp) (h : mapsConsUpTo e P) :
    mapsConsUpTo (place_new_grid_order_on_level cfg level_price symbol e σ).1 P := by
  cases hlv : getLevelE e symbol level_price with
  | none => simpa [place_new_grid_order_on_level, hlv] using h
  | some level =>
    have h1 : mapsConsUpTo (updLevel symbol level_price (fun l => { l with is_active_long := true }) e) P :=
      mapsConsUpTo_updLevel _ _ _ h
    by_cases hco : level.can_open_position = true
    · simp only [place_new_grid_order_on_level, hlv, hco, Bool.not_true, Bool.false_eq_true,
        if_false]
      rcases hget : get_next_free_account 0
          (updLevel symbol level_price (fun l => { l with is_active_long := true }) e).aq
        with ⟨acct, aq1⟩
      cases acct with
      | none => simpa [hget] using h1
      | some account =>
        simp only [hget]
        have h2 := mapsConsUpTo_aq (e := updLevel symbol level_price
          (fun l => { l with is_active_long := true }) e) aq1 h1
        have hpres := place_order_with_usdt_volume_pres (P := P) account.account_id symbol
          "Buy" (get_level_config cfg symbol level_price).volume_usdt level_price "grid"
          (some level_price)
          { updLevel symbol level_price (fun l => { l with is_active_long := true }) e
            with aq := aq1 } σ h2
        rcases hpo : place_order_with_usdt_volume account.account_id symbol "Buy"
            (get_level_config cfg symbol level_price).volume_usdt level_price "grid"
            (some level_price)
            { updLevel symbol level_price (fun l => { l with is_active_long := true }) e
              with aq := aq1 } σ with ⟨oid, e2, σ2⟩
        rw [hpo] at hpres
        simpa [hpo] using hpres
    · have hco2 : level.can_open_position = false := by
        cases hx : level.can_open_position
        · rfl
        · exact absurd hx hco
      simpa [place_new_grid_order_on_level, hlv, hco2] using h1


/-- Weakening of the allowance predicate. -/
theorem mapsConsUpTo_mono {e : Eng} {P Q : String → Prop} (hpq : ∀ k, P k → Q k)
    (h : mapsConsUpTo e P) : mapsConsUpTo e Q :=
  fun k hk => (h k hk).elim Or.inl (fun hp => Or.inr (hpq k hp))

/-- An account returned by find_position_by_order holds a position. -/
theorem find_position_by_order_isSome :
    ∀ (l : List TradingAccount) (oid t : String) (a : TradingAccount),
      find_position_by_order l oid t = some a → ∃ p, a.long_usdt_position = some p := by
  intro l
  induction l with
  | nil => intro oid t a h; simp [find_position_by_order] at h
  | cons x rest ih =>
    intro oid t a h
    cases hp : x.long_usdt_position with
    | none =>
      rw [find_position_by_order, hp] at h
      exact ih oid t a h
    | some position =>
      simp only [find_position_by_order, hp] at h
      by_cases hc : (t = "close" ∧ position.close_order_id = some oid)
          ∨ (t = "averaging" ∧ position.averaging_order_id = some oid)
      · rw [if_pos hc] at h
        obtain rfl := Option.some.inj h
        exact ⟨position, hp⟩
      · rw [if_neg hc] at h
        exact ih oid t a h

/-- A grid-fill handler that locates its target and runs to completion (the
uncaught capacity-check call inside place_averaging_order does not raise)
preserves map consistency, discharging the allowance for the fill id it
cleans out of the mapping. -/
theorem handle_grid_order_fill_pres {P : String → Prop} (cfg : Config) (ord : Order)
    (e : Eng) (σ : List XResp) (account : TradingAccount)
    (hacc : lookupAcct e.aq.accounts ord.account_id = some account)
    (hfree : account.long_usdt_position = none)
    (hok : (handle_grid_order_fill cfg ord e σ).2.2 = true)
    (h : mapsConsUpTo e (fun k => k = ord.order_id ∨ P k)) :
    mapsConsUpTo (handle_grid_order_fill cfg ord e σ).1 P := by
  simp only [handle_grid_order_fill, hacc, hfree] at hok ⊢
  split
  · apply mapsConsUpTo_delMapping
    apply replace_grid_order_pres
    apply place_averaging_order_pres
    apply place_close_order_pres
    cases hlp : ord.level_price with
    | none => exact mapsConsUpTo_aq _ h
    | some lp =>
      by_cases hz : lp = 0
      · simp only [hz, if_true]
        exact mapsConsUpTo_aq _ h
      · simp only [hz, if_false]
        exact mapsConsUpTo_updLevel _ _ _ (mapsConsUpTo_aq _ h)
  · next hcond =>
    rw [if_neg hcond] at hok
    simp at hok

/-- A completing close-fill handler preserves map consistency, discharging
the allowance for the fill id it cleans out of the mapping. -/
theorem handle_close_order_fill_pres {P : String → Prop} (cfg : Config) (ord : Order)
    (e : Eng) (σ : List XResp) (account : TradingAccount)
    (hfind : find_position_by_order e.aq.accounts ord.order_id "close" = some account)
    (h : mapsConsUpTo e (fun k => k = ord.order_id ∨ P k)) :
    mapsConsUpTo (handle_close_order_fill cfg ord e σ).1 P := by
  obtain ⟨position, hpos⟩ := find_position_by_order_isSome _ _ _ _ hfind
  simp only [handle_close_order_fill, hfind, hpos]
  apply mapsConsUpTo_delMapping
  apply place_new_grid_order_on_level_pres
  apply mapsConsUpTo_aq
  apply mapsConsUpTo_updLevel
  apply mapsConsUpTo_aq
  cases hvid : position.averaging_order_id with
  | none => exact h
  | some vid => exact cancel_and_cleanup_order_pres _ _ _ _ _ h

/-- A completing averaging-fill handler preserves map consistency,
discharging the allowance for the fill id it cleans out of the mapping. -/
theorem handle_averaging_order_fill_pres {P : String → Prop} (cfg : Config) (ord : Order)
    (e : Eng) (σ : List XResp) (account : TradingAccount)
    (hfind : find_position_by_order e.aq.accounts ord.order_id "averaging" = some account)
    (h : mapsConsUpTo e (fun k => k = ord.order_id ∨ P k)) :
    mapsConsUpTo (handle_averaging_order_fill cfg ord e σ).1 P := by
  obtain ⟨position, hpos⟩ := find_position_by_order_isSome _ _ _ _ hfind
  simp only [handle_averaging_order_fill, hfind, hpos]
  apply mapsConsUpTo_delMapping
  apply place_breakeven_close_order_pres
  cases hcid : position.close_order_id with
  | none => exact mapsConsUpTo_updAcctPos _ _ h
  | some cid =>
    exact cancel_and_cleanup_order_pres _ _ _ _ _ (mapsConsUpTo_updAcctPos _ _ h)

/-- A fill is located when its handler can find its target: the owning free
account for a grid fill, or the position carrying the order id for a close or
averaging fill.  The handlers drop the fill otherwise. -/
def fillLocated (ord : Order) (e : Eng) : Prop :=
  (ord.purpose = "grid"
      ∧ ∃ a, lookupAcct e.aq.accounts ord.account_id = some a ∧ a.long_usdt_position = none)
    ∨ (ord.purpose = "close"
        ∧ ∃ a, find_position_by_order e.aq.accounts ord.order_id "close" = some a)
    ∨ (ord.purpose = "averaging"
        ∧ ∃ a, find_position_by_order e.aq.accounts ord.order_id "averaging" = some a)


/-- C3 amended: the subset invariant (every order-to-account mapping key is
an active-orders key) is preserved by order placement and by cancellation
cleanup, and a fill-handling step whose handler locates its target and runs
to completion (no exchange call raising uncaught out of the handler, which
only the capacity-check await inside place_averaging_order can do during a
grid fill) restores it from the intermediate state in which only the fill id
itself is allowed to be missing from active orders.  (A dropped fill instead
leaves its mapping entry behind, as the counterexample shows, and a handler
aborted by such an uncaught exception likewise stops before its mapping
cleanup.) -/
theorem tracking_maps_stay_consistent :
    (∀ (account_id symbol side purpose : String) (quantity price : ℚ) (lp : Option ℚ)
        (e : Eng) (σ : List XResp), mapsCons e →
        mapsCons (place_order account_id symbol side quantity price purpose lp e σ).2.1)
    ∧ (∀ (order_id symbol account_id : String) (e : Eng) (σ : List XResp), mapsCons e →
        mapsCons (cancel_and_cleanup_order order_id symbol account_id e σ).2.1)
    ∧ (∀ (cfg : Config) (ord : Order) (e : Eng) (σ : List XResp),
        fillLocated ord e → (handle_order_fill cfg ord e σ).2.2 = true →
        mapsConsUpTo e (fun k => k = ord.order_id) →
        mapsCons (handle_order_fill cfg ord e σ).1) := by
  refine ⟨?_, ?_, ?_⟩
  · intro account_id symbol side purpose quantity price lp e σ h
    exact mapsCons_of_upTo_false
      (place_order_pres account_id symbol side quantity price purpose lp e σ (mapsCons_upTo h))
  · intro order_id symbol account_id e σ h
    exact mapsCons_of_upTo_false
      (cancel_and_cleanup_order_pres order_id symbol account_id e σ (mapsCons_upTo h))
  · intro cfg ord e σ hloc hok hup
    have hup2 : mapsConsUpTo e (fun k => k = ord.order_id ∨ False) :=
      mapsConsUpTo_mono (fun k hk => Or.inl hk) hup
    rcases hloc with ⟨hpurp, a, hacc, hfree⟩ | ⟨hpurp, a, hfind⟩ | ⟨hpurp, a, hfind⟩
    · simp only [handle_order_fill, hpurp, if_true] at hok ⊢
      exact mapsCons_of_upTo_false
        (handle_grid_order_fill_pres cfg ord e σ a hacc hfree hok hup2)
    · rw [handle_order_fill, hpurp]
      simp only [String.reduceEq, if_false, if_true, reduceIte]
      exact mapsCons_of_upTo_false (handle_close_order_fill_pres cfg ord e σ a hfind hup2)
    · rw [handle_order_fill, hpurp]
      simp only [String.reduceEq, if_false, if_true, reduceIte]
      exact mapsCons_of_upTo_false (handle_averaging_order_fill_pres cfg ord e σ a hfind hup2)

/-- A grid fill order on account B1 used by the consistency witness. -/
def ordW : Order :=
  { order_id := "F1", symbol := "S", side := "Buy", order_type := "Limit", quantity := 1
    price := 100, purpose := "grid", account_id := "B1", level_price := some 100 }

/-- A state in which fill F1 has been popped from active orders but not yet
cleaned from the mapping, and account B1 is free. -/
def engW : Eng :=
  { aq := { accounts := [{ account_id := "B1" }], long_queue := [] }
    levels := []
    current_prices := []
    active_orders := []
    order_account_mapping := [("F1", "B1")] }

/-- Witness for C3's amended theorem: on the concrete state engW, with a
script on which the close placement fails (caught) and the averaging capacity
check returns false (so the handler runs to completion), the grid-fill
dispatch restores full map consistency. -/
theorem tracking_maps_stay_consistent_witness :
    fillLocated ordW engW
      ∧ (handle_order_fill cfgOne ordW engW [XResp.pErr, XResp.can false]).2.2 = true
      ∧ mapsCons (handle_order_fill cfgOne ordW engW [XResp.pErr, XResp.can false]).1 := by
  have hloc : fillLocated ordW engW := Or.inl ⟨rfl, ⟨{ account_id := "B1" }, rfl, rfl⟩⟩
  have hok : (handle_order_fill cfgOne ordW engW [XResp.pErr, XResp.can false]).2.2 = true :=
    of_decide_eq_true (by with_unfolding_all rfl)
  have hup : mapsConsUpTo engW (fun k => k = ordW.order_id) := by
    intro k hk
    right
    by_cases hk1 : "F1" = k
    · exact hk1.symm
    · simp [engW, lookupA, hk1] at hk
  exact ⟨hloc, hok,
    tracking_maps_stay_consistent.2.2 cfgOne ordW engW [XResp.pErr, XResp.can false] hloc hok hup⟩

/-- C4 amended: when the exchange cancellation call returns a result (success
or reported failure), the order id is removed from both the active-orders map
and the account mapping, regardless of any later balance-refresh error; when
the cancellation call itself raises, the engine state is left entirely
unchanged. -/
theorem cancel_cleanup_removes_when_call_returns :
    ∀ (order_id symbol account_id : String) (e : Eng),
      (∀ (b : Bool) (σ : List XResp),
        lookupA (cancel_and_cleanup_order order_id symbol account_id e
            (XResp.cOk b :: σ)).2.1.active_orders order_id = none
          ∧ lookupA (cancel_and_cleanup_order order_id symbol account_id e
              (XResp.cOk b :: σ)).2.1.order_account_mapping order_id = none)
      ∧ (∀ σ : List XResp,
          (cancel_and_cleanup_order order_id symbol account_id e (XResp.cErr :: σ)).2.1 = e) := by
  intro order_id symbol account_id e
  constructor
  · intro b σ
    cases b with
    | false => simp [cancel_and_cleanup_order, lookupA_delA_self]
    | true =>
      cases hl : lookupAcct e.aq.accounts account_id with
      | none => simp [cancel_and_cleanup_order, hl, lookupA_delA_self]
      | some a =>
        cases σ with
        | nil => simp [cancel_and_cleanup_order, hl, lookupA_delA_self]
        | cons r σ2 => cases r <;> simp [cancel_and_cleanup_order, hl, lookupA_delA_self]
  · intro σ
    simp [cancel_and_cleanup_order]


/-- C9: both replacement paths acquire their account with required balance 0
(the source calls get_next_free_account with its default argument), so even
an account whose balance is below the level volume / leverage requirement is
selected and the grid order is placed on it. -/
theorem replacement_bypasses_min_balance :
    ∀ (cfg : Config) (symbol : String) (lp : ℚ) (e : Eng) (σ : List XResp) (oid : String)
      (level : GridLevel) (account : TradingAccount),
      getLevelE e symbol lp = some level →
      level.can_open_position = true →
      (get_next_free_account 0 e.aq).1 = some account →
      account.balance < (get_level_config cfg symbol lp).volume_usdt
          / (get_level_config cfg symbol lp).leverage →
      0 < calculate_quantity_from_usdt (get_level_config cfg symbol lp).volume_usdt lp →
      ((lookupA (replace_grid_order cfg lp symbol e (XResp.pOk oid :: σ)).1.active_orders
            oid).map Order.account_id = some account.account_id
        ∧ (lookupA (place_new_grid_order_on_level cfg lp symbol e
              (XResp.pOk oid :: σ)).1.active_orders oid).map Order.account_id
            = some account.account_id) := by
  intro cfg symbol lp e σ oid level account hlv hco hacq _hbal hq
  have hq' : ¬ calculate_quantity_from_usdt (get_level_config cfg symbol lp).volume_usdt lp ≤ 0 :=
    not_le.mpr hq
  rcases hget : get_next_free_account 0 e.aq with ⟨acctOpt, aq1⟩
  rw [hget] at hacq
  simp only at hacq
  subst hacq
  constructor
  · simp only [replace_grid_order, hlv, hco, Bool.not_true, Bool.false_eq_true, if_false, hget,
      place_order_with_usdt_volume, hq', place_order]
    simp [lookupA_insA_self]
  · have hget2 : get_next_free_account 0
        (updLevel symbol lp (fun l => { l with is_active_long := true }) e).aq
        = (some account, aq1) := by
      simpa [updLevel] using hget
    simp only [place_new_grid_order_on_level, hlv, hco, Bool.not_true, Bool.false_eq_true,
      if_false, hget2, place_order_with_usdt_volume, hq', place_order]
    simp [lookupA_insA_self]

/-- A one-level state whose only free account B1 has balance 5, far below the
100 / 1 balance requirement the placement cycle would apply. -/
def engR : Eng :=
  { aq := { accounts := [{ account_id := "B1", balance := 5 }], long_queue := ["B1"] }
    levels := [("S", [{ price := 100 }])]
    current_prices := []
    active_orders := []
    order_account_mapping := [] }

/-- Witness for C9: with required balance volume / leverage = 100 and sole
free-account balance 5, both replacement paths still place the grid order on
that account. -/
theorem replacement_bypasses_min_balance_witness :
    ({ account_id := "B1", balance := 5 } : TradingAccount).balance
        < (get_level_config cfgOne "S" 100).volume_usdt
            / (get_level_config cfgOne "S" 100).leverage
      ∧ (lookupA (replace_grid_order cfgOne 100 "S" engR
            (XResp.pOk "G9" :: [])).1.active_orders "G9").map Order.account_id = some "B1"
      ∧ (lookupA (place_new_grid_order_on_level cfgOne 100 "S" engR
            (XResp.pOk "G9" :: [])).1.active_orders "G9").map Order.account_id = some "B1" := by
  have h := replacement_bypasses_min_balance cfgOne "S" 100 engR [] "G9"
    { price := 100 } { account_id := "B1", balance := 5 }
    (of_decide_eq_true (by with_unfolding_all rfl))
    (of_decide_eq_true (by with_unfolding_all rfl))
    (of_decide_eq_true (by with_unfolding_all rfl))
    (of_decide_eq_true (by with_unfolding_all rfl))
    (of_decide_eq_true (by with_unfolding_all rfl))
  exact ⟨of_decide_eq_true (by with_unfolding_all rfl), h.1, h.2⟩

end Treade
